import Mathlib

/-!
Verification of the sports-sheet-to-calendar synchronization engine
(`calendar_sync.py`, `calendar_sync_service_account.py`, `automated_sync.py`).

The Python source is shallowly embedded: pure functions become Lean
functions, fallible code (Python exceptions) returns `Option`, and the
Google Calendar service is modelled as an explicit store of events keyed
by opaque numeric ids.  All string processing is done on `List Char`
(`String.data`), mirroring Python string operations at code-point level.
-/

namespace SportsSync

/-! ## String utilities -/

def ofChars (cs : List Char) : String := String.mk cs

def asciiLower (c : Char) : Char :=
  if 'A' ≤ c ∧ c ≤ 'Z' then Char.ofNat (c.toNat + 32) else c

/-- Python `str.lower()` (ASCII fragment, which is all the source uses). -/
def lowerStr (s : String) : String := ofChars (s.data.map asciiLower)

def isSpaceChar (c : Char) : Bool :=
  c == ' ' || c == '\t' || c == '\n' || c == '\r'

def trimCharsLeft (cs : List Char) : List Char := cs.dropWhile isSpaceChar

/-- Python `str.strip()` (ASCII whitespace fragment). -/
def trimChars (cs : List Char) : List Char :=
  ((trimCharsLeft cs).reverse.dropWhile isSpaceChar).reverse

def trimStr (s : String) : String := ofChars (trimChars s.data)

def isPrefixList (p s : List Char) : Bool :=
  match p, s with
  | [], _ => true
  | _ :: _, [] => false
  | a :: as, b :: bs => a == b && isPrefixList as bs

/-- Python `needle in hay` on strings. -/
def containsSub (needle hay : List Char) : Bool :=
  match hay with
  | [] => isPrefixList needle []
  | _ :: t => isPrefixList needle hay || containsSub needle t

def isDigitChar (c : Char) : Bool := '0' ≤ c && c ≤ '9'

def digitVal (c : Char) : Nat := c.toNat - 48

def digitChar (n : Nat) : Char := Char.ofNat (48 + n % 10)

def pad2 (n : Nat) : List Char := [digitChar (n / 10), digitChar n]

def pad4 (n : Nat) : List Char :=
  [digitChar (n / 1000), digitChar (n / 100), digitChar (n / 10), digitChar n]

/-! ## Dates (`datetime.date`) -/

structure Date where
  year : Nat
  month : Nat
  day : Nat
deriving DecidableEq, Repr

def isLeapYear (y : Nat) : Bool :=
  (y % 4 == 0 && y % 100 != 0) || y % 400 == 0

def daysInMonth (y m : Nat) : Nat :=
  match m with
  | 1 => 31 | 2 => if isLeapYear y then 29 else 28 | 3 => 31 | 4 => 30
  | 5 => 31 | 6 => 30 | 7 => 31 | 8 => 31 | 9 => 30 | 10 => 31
  | 11 => 30 | 12 => 31
  | _ => 0

def ValidDate (d : Date) : Prop :=
  1 ≤ d.year ∧ d.year ≤ 9999 ∧ 1 ≤ d.month ∧ d.month ≤ 12 ∧
    1 ≤ d.day ∧ d.day ≤ daysInMonth d.year d.month

instance (d : Date) : Decidable (ValidDate d) := by
  unfold ValidDate; infer_instance

/-- Python `datetime(year, month, day)`: validates its arguments and raises
`ValueError` (here: `none`) when they do not form a real calendar date. -/
def mkDate? (y m d : Nat) : Option Date :=
  if ValidDate ⟨y, m, d⟩ then some ⟨y, m, d⟩ else none

/-- Python: `date + timedelta(days=1)`; `none` models the `OverflowError` past
`date.max` (9999-12-31). -/
def dateSucc? (d : Date) : Option Date :=
  if d.day < daysInMonth d.year d.month then some ⟨d.year, d.month, d.day + 1⟩
  else if d.month < 12 then some ⟨d.year, d.month + 1, 1⟩
  else if d.year < 9999 then some ⟨d.year + 1, 1, 1⟩
  else none

/-- Total order key for valid dates (month < 100 and day < 100). -/
def dateKey (d : Date) : Nat := d.year * 10000 + d.month * 100 + d.day

def dateLtB (a b : Date) : Bool := dateKey a < dateKey b

def dateLeB (a b : Date) : Bool := dateKey a ≤ dateKey b

/-- Python: `date.strftime("%Y-%m-%d")` (years in this program are 4-digit). -/
def fmtDate (d : Date) : String :=
  ofChars (pad4 d.year ++ '-' :: (pad2 d.month ++ '-' :: pad2 d.day))

/-- Parse a `YYYY-MM-DD` string back into a `Date` (used to state
chronological facts about the formatted output of the builder). -/
def parseIsoDate (s : String) : Option Date :=
  match s.data with
  | [y1, y2, y3, y4, h1, m1, m2, h2, d1, d2] =>
    if isDigitChar y1 && isDigitChar y2 && isDigitChar y3 && isDigitChar y4 &&
        h1 == '-' && isDigitChar m1 && isDigitChar m2 && h2 == '-' &&
        isDigitChar d1 && isDigitChar d2 then
      mkDate? (((digitVal y1 * 10 + digitVal y2) * 10 + digitVal y3) * 10 + digitVal y4)
        (digitVal m1 * 10 + digitVal m2) (digitVal d1 * 10 + digitVal d2)
    else none
  | _ => none

/-- Chronological strict order of two builder-formatted `YYYY-MM-DD`
strings. -/
def dateStrLt (a b : String) : Bool :=
  match parseIsoDate a, parseIsoDate b with
  | some x, some y => dateLtB x y
  | _, _ => false

/-! ## The regex fragments of `parse_date`

Python `re.match` with pattern `(\d{1,2})/(\d{1,2})-(\d{1,2})/(\d{4})` anchors at the
start only and allows trailing characters.  Each `\d{1,2}` group is
delimited by a separator, so greedy matching with backtracking reduces to:
two leading digits followed by the separator, else one leading digit
followed by the separator. -/

def numThen (sep : Char) (cs : List Char) : Option (Nat × List Char) :=
  match cs with
  | a :: b :: rest =>
    if isDigitChar a && isDigitChar b then
      match rest with
      | c :: rest2 => if c == sep then some (digitVal a * 10 + digitVal b, rest2) else none
      | [] => none
    else if isDigitChar a && b == sep then some (digitVal a, rest)
    else none
  | _ => none

/-- Python: `(\d{4})` at the front, any suffix allowed (the pattern is unanchored
at the end). -/
def fourDigitsHere (cs : List Char) : Option Nat :=
  match cs with
  | a :: b :: c :: d :: _ =>
    if isDigitChar a && isDigitChar b && isDigitChar c && isDigitChar d then
      some (((digitVal a * 10 + digitVal b) * 10 + digitVal c) * 10 + digitVal d)
    else none
  | _ => none

/-- Python `re.match` with `(\d{1,2})/(\d{1,2})-(\d{1,2})/(\d{4})`:
month, start day, end day, year. -/
def matchRangeMDDY (cs : List Char) : Option (Nat × Nat × Nat × Nat) := do
  let (m, r1) ← numThen '/' cs
  let (d1, r2) ← numThen '-' r1
  let (d2, r3) ← numThen '/' r2
  let y ← fourDigitsHere r3
  pure (m, d1, d2, y)

/-- Python: `datetime.strptime(s, "%m/%d/%Y")`: the whole string must be consumed
and the year is exactly four digits. -/
def strptimeMDY (cs : List Char) : Option (Nat × Nat × Nat) := do
  let (m, r1) ← numThen '/' cs
  let (d, r2) ← numThen '/' r1
  match r2 with
  | [a, b, c, e] =>
    if isDigitChar a && isDigitChar b && isDigitChar c && isDigitChar e then
      pure (m, d, ((digitVal a * 10 + digitVal b) * 10 + digitVal c) * 10 + digitVal e)
    else none
  | _ => none

/-- Python: `datetime.strptime(s, "%m/%d/%y")`: two-digit year, whole string
consumed; `%y` maps 00-68 to 20xx and 69-99 to 19xx. -/
def strptimeMDy2 (cs : List Char) : Option (Nat × Nat × Nat) := do
  let (m, r1) ← numThen '/' cs
  let (d, r2) ← numThen '/' r1
  match r2 with
  | [a, b] =>
    if isDigitChar a && isDigitChar b then
      let yy := digitVal a * 10 + digitVal b
      pure (m, d, if yy ≤ 68 then 2000 + yy else 1900 + yy)
    else none
  | _ => none

/-- Python: `parse_date` of `calendar_sync.py` (lines 182-223).  Returns
`(start_date, end_date)` with `end_date = none` for single dates; `none`
models any raised `ValueError` (including an invalid month/day escaping
from a matched range via the `datetime` constructor).  The second,
"shorthand" range branch of the source repeats the first regex verbatim
and is therefore unreachable. -/
def parseDateChars (cs : List Char) : Option (Date × Option Date) :=
  if containsSub "week of".data (cs.map asciiLower) ||
      containsSub " or ".data (cs.map asciiLower) then none
  else
    match matchRangeMDDY cs with
    | some (m, d1, d2, y) =>
      match mkDate? y m d1, mkDate? y m d2 with
      | some a, some b => some (a, some b)
      | _, _ => none
    | none =>
      match (match strptimeMDY cs with
             | some (m, d, y) => mkDate? y m d
             | none => none) with
      | some a => some (a, none)
      | none =>
        match strptimeMDy2 cs with
        | some (m, d, y) => (mkDate? y m d).map (fun a => (a, none))
        | none => none

/-- Embeds `parse_date` of `calendar_sync.py` (see `parseDateChars` for the
branch structure; the argument is stripped first). -/
def parse_date (s : String) : Option (Date × Option Date) :=
  parseDateChars (trimChars s.data)

/-! ## `parse_date` of `calendar_sync_service_account.py` (lines 101-161)

This variant additionally recognizes full cross-month ranges such as
`8/4 - 8/7`, taking the year from `datetime.now().year`, which is passed
in here as `nowYear`. -/

/-- Python: `(\d{1,2})\s*-\s*` or `(\d{1,2})/...`: one or two digits, optional
whitespace, then the separator, then optional whitespace skipped by the
caller where the pattern has it. -/
def numThenWsSep (sep : Char) (cs : List Char) : Option (Nat × List Char) :=
  match cs with
  | a :: b :: rest =>
    if isDigitChar a && isDigitChar b then
      let r := trimCharsLeft rest
      match r with
      | c :: rest2 => if c == sep then some (digitVal a * 10 + digitVal b, trimCharsLeft rest2) else none
      | [] => none
    else if isDigitChar a then
      let r := trimCharsLeft (b :: rest)
      match r with
      | c :: rest2 => if c == sep then some (digitVal a, trimCharsLeft rest2) else none
      | [] => none
    else none
  | [a] =>
    if isDigitChar a then none else none
  | [] => none

/-- Leading `(\d{1,2})` with no trailing anchor. -/
def leadNum12 (cs : List Char) : Option (Nat × List Char) :=
  match cs with
  | a :: b :: rest =>
    if isDigitChar a && isDigitChar b then some (digitVal a * 10 + digitVal b, rest)
    else if isDigitChar a then some (digitVal a, b :: rest)
    else none
  | [a] => if isDigitChar a then some (digitVal a, []) else none
  | [] => none

/-- Python `re.match` with `(\d{1,2})/(\d{1,2})\s*-\s*(\d{1,2})/(\d{1,2})`:
start month, start day, end month, end day. -/
def matchFullRangeNoYear (cs : List Char) : Option (Nat × Nat × Nat × Nat) := do
  let (m1, r1) ← numThen '/' cs
  let (d1, r2) ← numThenWsSep '-' r1
  let (m2, r3) ← numThen '/' r2
  let (d2, _) ← leadNum12 r3
  pure (m1, d1, m2, d2)

/-- Python: `parse_date` of `calendar_sync_service_account.py`.  `nowYear` stands
for `datetime.now().year`.  The with-year full-range pattern of the source
is unreachable (its every match is already a match of the no-year pattern,
which is tried first) and the same-month range and single-date fallbacks
are those of the main parser. -/
def parse_date_sa (nowYear : Nat) (s : String) : Option (Date × Option Date) :=
  let cs := trimChars s.data
  let low := cs.map asciiLower
  if containsSub "week of".data low || containsSub " or ".data low then none
  else
    match matchFullRangeNoYear cs with
    | some (m1, d1, m2, d2) =>
      match mkDate? nowYear m1 d1, mkDate? nowYear m2 d2 with
      | some a, some b => some (a, some b)
      | _, _ => none
    | none =>
      match matchRangeMDDY cs with
      | some (m, d1, d2, y) =>
        match mkDate? y m d1, mkDate? y m d2 with
        | some a, some b => some (a, some b)
        | _, _ => none
      | none =>
        match (match strptimeMDY cs with
               | some (m, d, y) => mkDate? y m d
               | none => none) with
        | some a => some (a, none)
        | none =>
          match strptimeMDy2 cs with
          | some (m, d, y) => (mkDate? y m d).map (fun a => (a, none))
          | none => none

/-! ## `extract_first_time` (`calendar_sync.py` lines 325-348)

Python `re.findall` with `(\d{1,2})(?::(\d{2}))?\s*(AM|PM|am|pm)?`: we only need
the first match, which starts at the first digit of the string (the hour
group requires at least one digit, the remaining groups are optional). -/

structure ClockHM where
  hour : Nat
  minute : Nat
deriving DecidableEq, Repr

/-- Python: `datetime.time(hour, minute)`: validates ranges, raising `ValueError`
(`none`) otherwise. -/
def mkTime? (h m : Nat) : Option ClockHM :=
  if h ≤ 23 ∧ m ≤ 59 then some ⟨h, m⟩ else none

/-- The first regex match: `(hour, minute?, ampm?)` where `ampm` is the
exact matched alternative (`AM`/`PM`/`am`/`pm`). -/
def firstTimeGroups (cs : List Char) : Option (Nat × Option Nat × Option String) :=
  match cs with
  | [] => none
  | a :: rest =>
    if isDigitChar a then
      -- greedy 1-2 digit hour
      let (h, r1) :=
        match rest with
        | b :: r => if isDigitChar b then (digitVal a * 10 + digitVal b, r) else (digitVal a, b :: r)
        | [] => (digitVal a, [])
      -- optional (?::(\d{2}))
      let (mi, r2) :=
        match r1 with
        | ':' :: x :: y :: r =>
          if isDigitChar x && isDigitChar y then (some (digitVal x * 10 + digitVal y), r)
          else (none, ':' :: x :: y :: r)
        | r => (none, r)
      -- \s*
      let r3 := r2.dropWhile isSpaceChar
      -- optional (AM|PM|am|pm), exact case alternatives in order
      let ampm :=
        if isPrefixList "AM".data r3 then some "AM"
        else if isPrefixList "PM".data r3 then some "PM"
        else if isPrefixList "am".data r3 then some "am"
        else if isPrefixList "pm".data r3 then some "pm"
        else none
      some (h, mi, ampm)
    else firstTimeGroups rest

/-- Python: `extract_first_time`.  The outer `none` models a `ValueError` escaping
from `datetime.time` (e.g. a 2-digit hour above 23 after PM adjustment),
which the per-row `except` of the caller turns into a skipped row;
`some none` means no time-like pattern was found. -/
def extract_first_time (s : String) : Option (Option ClockHM) :=
  if s = "" then some none
  else
    match firstTimeGroups s.data with
    | none => some none
    | some (h, mi, ampm) =>
      let minute := mi.getD 0
      let hour :=
        if (ampm == some "pm" || ampm == some "PM") && h < 12 then h + 12
        else if (ampm == some "am" || ampm == some "AM") && h == 12 then 0
        else if ampm == none && 1 ≤ h && h ≤ 11 then h + 12
        else h
      match mkTime? hour minute with
      | some t => some (some t)
      | none => none

/-! ## `parse_sports_events` (`calendar_sync.py` lines 350-505) -/

inductive TimeSpec where
  | date (s : String)
  | dateTime (s : String)
deriving DecidableEq, Repr

/-- A Google Calendar event body.  Fields the source reads with
`.get(key)` are `Option`s (`none` = key absent). -/
structure Event where
  summary : Option String
  description : Option String
  location : Option String
  start : Option TimeSpec
  «end» : Option TimeSpec
deriving DecidableEq, Repr

def headerKeywords : List String := ["date", "event", "location", "time", "venue", "place"]

def sportStopWords : List String := ["coach", "tentative", "schedule", "call"]

/-- Python `" ".join(str(cell) for cell in row)` (with the separator
written here in double quotes). -/
def joinSpace : List String → List Char
  | [] => []
  | [s] => s.data
  | s :: rest => s.data ++ ' ' :: joinSpace rest

/-- Tests whether the joined, lowered text of a row contains a header
keyword. -/
def rowHasKeyword (row : List String) : Bool :=
  let txt := (joinSpace row).map asciiLower
  headerKeywords.any (fun kw => containsSub kw.data txt)

/-- The backwards scan for the sport name over the rows preceding the
header row; the argument lists those rows nearest-first (reversed). -/
def sportFromPrior : List (List String) → Option String
  | [] => none
  | r :: rest =>
    match r with
    | c0 :: _ =>
      if c0 ≠ "" then
        let p := trimStr c0
        if p ≠ "" &&
            !(sportStopWords.any (fun kw => containsSub kw.data (p.data.map asciiLower))) then
          some p
        else sportFromPrior rest
      else sportFromPrior rest
    | [] => sportFromPrior rest

/-- Scan for the header row (first row whose text contains a header
keyword, empty rows skipped); returns the header row, the resolved sport
name, and the remaining data rows.  `prior` accumulates the already
visited rows nearest-first. -/
def findHeader (sheetName : String) : List (List String) → List (List String) →
    Option (List String × String × List (List String))
  | _, [] => none
  | prior, r :: rest =>
    if r = [] then findHeader sheetName (r :: prior) rest
    else if rowHasKeyword r then some (r, (sportFromPrior prior).getD sheetName, rest)
    else findHeader sheetName (r :: prior) rest

structure Cols where
  dateIdx : Option Nat
  eventIdx : Option Nat
  locIdx : Option Nat
  timeIdx : Option Nat
deriving DecidableEq, Repr

/-- One step of the column-detection `for`/`elif` chain. -/
def colStep (acc : Cols) (ih : Nat × String) : Cols :=
  let hl := trimChars ((ih.2).data.map asciiLower)
  if containsSub "date".data hl then { acc with dateIdx := some ih.1 }
  else if containsSub "event".data hl || containsSub "title".data hl ||
      containsSub "name".data hl || containsSub "opponent".data hl then
    { acc with eventIdx := some ih.1 }
  else if containsSub "location".data hl || containsSub "place".data hl ||
      containsSub "venue".data hl then
    { acc with locIdx := some ih.1 }
  else if containsSub "time".data hl then
    if containsSub "start".data hl then { acc with timeIdx := some ih.1 }
    else if acc.timeIdx = none then { acc with timeIdx := some ih.1 }
    else acc
  else acc

def findCols (headers : List String) : Cols :=
  headers.enum.foldl colStep ⟨none, none, none, none⟩

/-- The time cell: `row[time_idx] if time_idx is not None and len(row) > time_idx else ""`. -/
def timeCell (ti : Option Nat) (row : List String) : String :=
  match ti with
  | some t => if t < row.length then row.getD t "" else ""
  | none => ""

/-- The optional time line appended to the event description. -/
def timeNote (pt : Option ClockHM) (t : String) : String :=
  match pt with
  | some _ => "\nTime: " ++ t
  | none => ""

/-- The body of the per-row loop of `parse_sports_events` (lines 424-497):
`none` = the row is skipped (too short, empty required cell, or a raised
parse error caught by the per-row `except`). -/
def buildRow (sport : String) (di ei li : Nat) (ti : Option Nat) (row : List String) :
    Option Event :=
  if row.length < max di (max ei li) + 1 then none
  else if row.getD di "" = "" ∨ row.getD ei "" = "" ∨ row.getD li "" = "" then none
  else
    match parse_date (row.getD di "") with
    | none => none
    | some (s, e?) =>
      match extract_first_time (timeCell ti row) with
      | none => none
      | some pt =>
        -- always an all-day event; Google Calendar end dates are exclusive
        match (match e? with
               | some e => dateSucc? e
               | none => dateSucc? s) with
        | none => none
        | some endCal =>
          some { summary := some (sport ++ " - " ++ row.getD ei "" ++ " at " ++ row.getD li ""),
                 description := some ("Location: " ++ row.getD li "" ++
                   timeNote pt (timeCell ti row)),
                 location := some (row.getD li ""),
                 start := some (.date (fmtDate s)),
                 «end» := some (.date (fmtDate endCal)) }

def processRows (sport : String) (di ei li : Nat) (ti : Option Nat)
    (rows : List (List String)) : List Event :=
  rows.filterMap (buildRow sport di ei li ti)

/-- Python: `parse_sports_events(data, sheet_name)`.  Total: per-row failures are
skipped, they never escape the loop. -/
def parse_sports_events (data : List (List String)) (sheetName : String) : List Event :=
  if data.length < 2 then []
  else
    match findHeader sheetName [] data with
    | none => []
    | some (headers, sport, rest) =>
      let cols := findCols headers
      match cols.dateIdx, cols.eventIdx, cols.locIdx with
      | some di, some ei, some li => processRows sport di ei li cols.timeIdx rest
      | _, _, _ => []

/-! ## ISO datetimes (`datetime.fromisoformat` / `isoformat` / comparison)

Only the formats this program produces and consumes are modelled:
`YYYY-MM-DD[<sep>HH:MM[:SS][±HH:MM]]` (fractional seconds never occur in
the data handled by the source). -/

structure DT where
  d : Date
  h : Nat
  mi : Nat
  s : Nat
  /-- UTC offset in minutes; `none` = naive datetime. -/
  offset : Option Int
deriving DecidableEq, Repr

/-- Python `s.replace` of the character `Z` by `+00:00`. -/
def zrepl (s : String) : List Char :=
  s.data.flatMap (fun c => if c == 'Z' then "+00:00".data else [c])

def twoDigits? : List Char → Option (Nat × List Char)
  | a :: b :: rest =>
    if isDigitChar a && isDigitChar b then some (digitVal a * 10 + digitVal b, rest) else none
  | _ => none

def parseOffsetTail (cs : List Char) : Option (Option Int) :=
  match cs with
  | [] => some none
  | sgn :: rest =>
    if sgn == '+' || sgn == '-' then
      match rest with
      | [a, b, c, x, y] =>
        if isDigitChar a && isDigitChar b && c == ':' && isDigitChar x && isDigitChar y then
          let hh := digitVal a * 10 + digitVal b
          let mm := digitVal x * 10 + digitVal y
          if hh ≤ 23 ∧ mm ≤ 59 then
            some (some ((if sgn == '-' then -1 else 1) * (hh * 60 + mm : Nat)))
          else none
        else none
      | _ => none
    else none

def parseTimeTail (d : Date) (cs : List Char) : Option DT := do
  let (h, r1) ← twoDigits? cs
  match r1 with
  | ':' :: r2 => do
    let (mi, r3) ← twoDigits? r2
    let (sec, r4) ←
      match r3 with
      | ':' :: r5 => do
        let (sec, r6) ← twoDigits? r5
        pure (sec, r6)
      | _ => pure (0, r3)
    if h ≤ 23 ∧ mi ≤ 59 ∧ sec ≤ 59 then
      let off ← parseOffsetTail r4
      pure ⟨d, h, mi, sec, off⟩
    else none
  | _ => none

/-- Python: `datetime.fromisoformat` on the formats in play; `none` = `ValueError`. -/
def parseIsoDT (cs : List Char) : Option DT :=
  match cs with
  | y1 :: y2 :: y3 :: y4 :: h1 :: m1 :: m2 :: h2 :: d1 :: d2 :: rest =>
    if isDigitChar y1 && isDigitChar y2 && isDigitChar y3 && isDigitChar y4 &&
        h1 == '-' && isDigitChar m1 && isDigitChar m2 && h2 == '-' &&
        isDigitChar d1 && isDigitChar d2 then
      match mkDate? (((digitVal y1 * 10 + digitVal y2) * 10 + digitVal y3) * 10 + digitVal y4)
          (digitVal m1 * 10 + digitVal m2) (digitVal d1 * 10 + digitVal d2) with
      | some d =>
        match rest with
        | [] => some ⟨d, 0, 0, 0, none⟩
        | _ :: timePart => parseTimeTail d timePart
      | none => none
    else none
  | _ => none

def leapsBefore (y : Nat) : Nat := (y - 1) / 4 - (y - 1) / 100 + (y - 1) / 400

def daysBeforeMonth (y : Nat) : Nat → Nat
  | 0 => 0
  | m + 1 => daysBeforeMonth y m + daysInMonth y m

/-- Day count from an arbitrary epoch, monotone in chronological order. -/
def dayIndex (d : Date) : Nat :=
  365 * (d.year - 1) + leapsBefore d.year + daysBeforeMonth d.year d.month + (d.day - 1)

def dtNaiveKey (x : DT) : Nat :=
  dayIndex x.d * 86400 + x.h * 3600 + x.mi * 60 + x.s

def dtInstant (x : DT) (off : Int) : Int :=
  (dtNaiveKey x : Int) - off * 60

/-- Python datetime comparison; `none` models the `TypeError` raised when
comparing a naive and an aware datetime. -/
def dtCompare (x y : DT) : Option Ordering :=
  match x.offset, y.offset with
  | none, none => some (compare (dtNaiveKey x) (dtNaiveKey y))
  | some ox, some oy => some (compare (dtInstant x ox) (dtInstant y oy))
  | _, _ => none

def fmtOffset (off : Int) : List Char :=
  let sgn := if off < 0 then '-' else '+'
  let a := off.natAbs
  sgn :: (pad2 (a / 60) ++ ':' :: pad2 (a % 60))

/-- Python: `datetime.isoformat()` (microseconds are always zero here). -/
def isoformatDT (x : DT) : String :=
  ofChars ((fmtDate x.d).data ++ 'T' :: (pad2 x.h ++ ':' :: pad2 x.mi ++ ':' :: pad2 x.s) ++
    (match x.offset with
     | some off => fmtOffset off
     | none => []))

/-- Python: `dt + timedelta(hours=1)`; `none` = `OverflowError` past `datetime.max`. -/
def addOneHourDT (x : DT) : Option DT :=
  if x.h < 23 then some { x with h := x.h + 1 }
  else
    match dateSucc? x.d with
    | some d2 => some { x with d := d2, h := 0 }
    | none => none

/-! ## Event identity and equality (`calendar_sync.py` lines 827-912) -/

def tsRaw : TimeSpec → String
  | .dateTime s => s
  | .date s => s

/-- Python: `get_event_key` (lines 827-851): `start_end_summary`, using the raw
`dateTime` string for timed events and the raw `date` string for all-day
events; `none` when the start or end is missing. -/
def get_event_key (e : Event) : Option String :=
  match e.start, e.«end» with
  | some a, some b => some (tsRaw a ++ "_" ++ tsRaw b ++ "_" ++ e.summary.getD "")
  | _, _ => none

/-- Python `re.sub` deleting the pattern `[+-]\d{2}:\d{2}$`: the last six characters are
removed when they form a UTC-offset suffix. -/
def isOffsetChars : List Char → Bool
  | [sgn, a, b, col, c, d] =>
    (sgn == '+' || sgn == '-') && isDigitChar a && isDigitChar b && col == ':' &&
      isDigitChar c && isDigitChar d
  | _ => false

def stripTrailingOffset (s : String) : String :=
  if isOffsetChars (s.data.drop (s.data.length - 6)) then
    ofChars (s.data.take (s.data.length - 6))
  else s

/-- Worker for the global offset removal, structurally recursive on a
fuel bound (initially the length of the list, which every step shrinks
by at least one, so the fuel never runs out). -/
def removeOffsetAux : Nat → List Char → List Char
  | 0, _ => []
  | fuel + 1, sgn :: a :: b :: col :: c :: d :: rest =>
    if (sgn == '+' || sgn == '-') && isDigitChar a && isDigitChar b && col == ':' &&
        isDigitChar c && isDigitChar d then
      removeOffsetAux fuel rest
    else sgn :: removeOffsetAux fuel (a :: b :: col :: c :: d :: rest)
  | fuel + 1, x :: rest => x :: removeOffsetAux fuel rest
  | _ + 1, [] => []

/-- Python `re.sub` deleting the pattern `[+-]\d{2}:\d{2}`: leftmost, non-overlapping removal
of every UTC-offset substring. -/
def removeOffsetSubs (cs : List Char) : List Char :=
  removeOffsetAux cs.length cs

/-- Python `s.split` at `T`, first component. -/
def takeBeforeT (s : String) : String := ofChars (s.data.takeWhile (fun c => c != 'T'))

/-- The date-portion fallback of `events_are_equal` for a mixed date /
dateTime comparison: `side.get(date) or side[dateTime].split(T)[0]` (quotes dropped).
`none` models the `KeyError` raised when the side has no usable field
(missing spec, or a falsy empty `date` with no `dateTime`). -/
def datePortion : Option TimeSpec → Option String
  | some (.date d) => if d = "" then none else some d
  | some (.dateTime dt) => some (takeBeforeT dt)
  | none => none

/-- Comparison of one start/end pair inside `events_are_equal`:
`some b` = the comparison evaluated to `b`, `none` = it raised. -/
def tsCompareEq : Option TimeSpec → Option TimeSpec → Option Bool
  | some (.dateTime a), some (.dateTime b) =>
    some (stripTrailingOffset a == stripTrailingOffset b)
  | some (.date a), some (.date b) => some (a == b)
  | x, y =>
    match datePortion x, datePortion y with
    | some p, some q => some (p == q)
    | _, _ => none

def cleanDesc (s : String) : String :=
  trimStr (ofChars (removeOffsetSubs (trimStr s).data))

/-- Python: `events_are_equal` (lines 853-912).  `some b` is the returned boolean;
`none` models an escaping `KeyError` (possible only for events missing
start/end data, which every caller filters out first). -/
def events_are_equal (e1 e2 : Event) : Option Bool :=
  if trimStr (e1.summary.getD "") ≠ trimStr (e2.summary.getD "") then some false
  else
    match tsCompareEq e1.start e2.start with
    | none => none
    | some false => some false
    | some true =>
      match tsCompareEq e1.«end» e2.«end» with
      | none => none
      | some false => some false
      | some true =>
        some (cleanDesc (e1.description.getD "") == cleanDesc (e2.description.getD ""))

/-! ## Event validation and fixing (`calendar_sync.py` lines 737-825) -/

/-- Lexicographic code-point order on char lists (Python string `<`). -/
def strLtChars : List Char → List Char → Bool
  | [], [] => false
  | [], _ :: _ => true
  | _ :: _, [] => false
  | a :: as, b :: bs =>
    if a.toNat < b.toNat then true
    else if b.toNat < a.toNat then false
    else strLtChars as bs

/-- Python string comparison `a < b` (lexicographic on code points). -/
def strLtB (a b : String) : Bool := strLtChars a.data b.data

/-- Python: `validate_event_times` (lines 737-788), keeping only the boolean: the
message component is used for logging only. -/
def validateEventTimes (e : Event) : Bool :=
  match e.start, e.«end» with
  | some s, some en =>
    match s, en with
    | .dateTime a, .dateTime b =>
      match parseIsoDT (zrepl a), parseIsoDT (zrepl b) with
      | some x, some y =>
        match dtCompare x y with
        | some o => o == Ordering.lt
        | none => false   -- naive/aware TypeError, caught by the outer except
      | _, _ => false     -- invalid datetime format
    | .date a, .date b => !(strLtB b a)
    | _, _ => true        -- mixed date/dateTime: no ordering check
  | _, _ => false         -- missing start or end

/-- Python: `fix_event_times` (lines 790-825): returns `(fixed, event)`; the
source mutates the event in place, modelled here by returning it. -/
def fixEventTimes (e : Event) : Bool × Event :=
  match e.start, e.«end» with
  | some (.dateTime a), some (.dateTime b) =>
    match parseIsoDT (zrepl a), parseIsoDT (zrepl b) with
    | some x, some y =>
      match dtCompare x y with
      | some o =>
        if o == Ordering.lt then (false, e)  -- end after start: no fixes needed
        else if o == Ordering.eq then
          match addOneHourDT x with
          | some y2 =>
            (true, { e with start := some (.dateTime (isoformatDT x)),
                            «end» := some (.dateTime (isoformatDT y2)) })
          | none => (false, e)               -- OverflowError caught
        else
          (true, { e with start := some (.dateTime (isoformatDT y)),
                          «end» := some (.dateTime (isoformatDT x)) })
      | none => (false, e)                   -- TypeError caught
    | _, _ => (false, e)                     -- ValueError caught
  | _, _ => (false, e)                       -- not a datetime event: no fixes needed

/-- The validate / fix-once / re-validate sequence applied to each new
event both before classification (lines 1001-1042) and again before
insertion (lines 1099-1118): `some e'` is the event that proceeds,
`none` means the event is skipped. -/
def processedVersion (e : Event) : Option Event :=
  if e.start.isNone || e.«end».isNone then none
  else if validateEventTimes e then some e
  else
    let fe := fixEventTimes e
    if fe.1 then (if validateEventTimes fe.2 then some fe.2 else none) else none

/-! ## The calendar store and `update_calendar` (lines 914-1146)

The CalendarStore collaborator is a list of events with opaque numeric
ids; `insert` assigns fresh ids, `delete` removes by id, `update`
replaces the body of an existing id and is a no-op (a caught API error)
when the id is gone. -/

structure StoredEvent where
  id : Nat
  ev : Event
deriving DecidableEq, Repr

structure Store where
  events : List StoredEvent
  nextId : Nat
deriving DecidableEq, Repr

/-- Python dict assignment `d[k] = v` (overwrite in place, else append). -/
def dictInsert (d : List (String × StoredEvent)) (k : String) (v : StoredEvent) :
    List (String × StoredEvent) :=
  if d.any (fun p => p.1 == k) then d.map (fun p => if p.1 == k then (k, v) else p)
  else d ++ [(k, v)]

def dictFind (d : List (String × StoredEvent)) (k : String) : Option StoredEvent :=
  (d.find? (fun p => p.1 == k)).map Prod.snd

/-- Python: `get_existing_events` fused with the re-keying loop at the top of
`update_calendar` (lines 956-987): stored events lacking start/end data
are skipped, the rest are keyed by `get_event_key`, later duplicates
overwriting earlier ones. -/
def existingDict (store : Store) : List (String × StoredEvent) :=
  store.events.foldl
    (fun d se =>
      match se.ev.start, se.ev.«end» with
      | some _, some _ =>
        match get_event_key se.ev with
        | some k => dictInsert d k se
        | none => d
      | _, _ => d)
    []

inductive SyncTag where
  | keepKey (k : String)
  | ins (e : Event)
  | chg (e : Event)
deriving DecidableEq

/-- The per-event classification of the main loop (lines 996-1066):
`none` = the event is skipped (invalid and unfixable, or the comparison
raised, caught by the per-event except). -/
def classifyEvent (dict : List (String × StoredEvent)) (e : Event) : Option SyncTag :=
  match processedVersion e with
  | none => none
  | some e' =>
    match get_event_key e' with
    | none => none
    | some k =>
      match dictFind dict k with
      | some se =>
        match events_are_equal e' se.ev with
        | some true => some (.keepKey k)
        | some false => some (.chg e')
        | none => none
      | none => some (.ins e')

def keepKeys (dict : List (String × StoredEvent)) (evs : List Event) : List String :=
  evs.filterMap (fun e =>
    match classifyEvent dict e with
    | some (.keepKey k) => some k
    | _ => none)

def insEvents (dict : List (String × StoredEvent)) (evs : List Event) : List Event :=
  evs.filterMap (fun e =>
    match classifyEvent dict e with
    | some (.ins e') => some e'
    | _ => none)

def chgEvents (dict : List (String × StoredEvent)) (evs : List Event) : List Event :=
  evs.filterMap (fun e =>
    match classifyEvent dict e with
    | some (.chg e') => some e'
    | _ => none)

/-- Python: `events_to_delete` (lines 1069-1072): every existing key not marked
kept. -/
def delKeys (dict : List (String × StoredEvent)) (keep : List String) : List String :=
  (dict.map Prod.fst).filter (fun k => !(keep.contains k))

def storeDeleteId (s : Store) (i : Nat) : Store :=
  { s with events := s.events.filter (fun se => se.id ≠ i) }

def storeInsert (s : Store) (e : Event) : Store :=
  { events := s.events ++ [⟨s.nextId, e⟩], nextId := s.nextId + 1 }

/-- Python: `events().update(...)`: replaces the body when the id exists; a call
on a deleted id fails and is caught (no state change). -/
def storeUpdate (s : Store) (i : Nat) (e : Event) : Store :=
  if s.events.any (fun se => se.id == i) then
    { s with events := s.events.map (fun se => if se.id == i then ⟨i, e⟩ else se) }
  else s

/-- The delete pass (lines 1082-1090): a loop over the keys to delete,
each removing from the store the id the snapshot maps that key to. -/
def applyDeletes (dict : List (String × StoredEvent)) : Store → List String → Store
  | st, [] => st
  | st, k :: ks =>
    applyDeletes dict
      (match dictFind dict k with
       | some se => storeDeleteId st se.id
       | none => st)
      ks

/-- The insert pass (lines 1092-1128), which re-validates and re-fixes
each event before inserting it. -/
def applyInserts : Store → List Event → Store
  | st, [] => st
  | st, e :: es =>
    applyInserts
      (match processedVersion e with
       | some e2 => storeInsert st e2
       | none => st)
      es

/-- The update pass (lines 1130-1140): each changed event targets the id
the original snapshot associated with its key. -/
def applyUpdates (dict : List (String × StoredEvent)) : Store → List Event → Store
  | st, [] => st
  | st, e :: es =>
    applyUpdates dict
      (match get_event_key e with
       | some k =>
         match dictFind dict k with
         | some se => storeUpdate st se.id e
         | none => st
       | none => st)
      es

structure SyncOutcome where
  store : Store
  deleted : Nat
  inserted : Nat
  changed : Nat
deriving DecidableEq, Repr

/-- Python: `update_calendar(service, events, calendar_id)` (lines 940-1146):
snapshot, classify, apply deletes then inserts then updates, and return
`(deleted, inserted, changed)` counts together with the resulting store
state. -/
def update_calendar (st : Store) (evs : List Event) : SyncOutcome :=
  let dict := existingDict st
  let keep := keepKeys dict evs
  let ins := insEvents dict evs
  let chg := chgEvents dict evs
  let dels := delKeys dict keep
  let s1 := applyDeletes dict st dels
  let s2 := applyInserts s1 ins
  let s3 := applyUpdates dict s2 chg
  ⟨s3, dels.length, ins.length, chg.length⟩

/-! ## `sync_single_sheet` (`automated_sync.py` lines 341-427)

The call at line 403 passes the keyword argument
`return_detailed_changes=True`, but the signature of `update_calendar`
(`calendar_sync.py` line 940) declares only `(service, events,
calendar_id)` and no `**kwargs`, so Python's call binding raises
`TypeError`, which the surrounding `except` converts into an error
result. -/

/-- The parameter names of `def update_calendar(service, events, calendar_id)`. -/
def updateCalendarParams : List String := ["service", "events", "calendar_id"]

/-- The keyword arguments of the call at `automated_sync.py:403`. -/
def updateCallKwargs : List String := ["return_detailed_changes"]

/-- Python call binding: a keyword argument not naming a parameter (with
no `**kwargs` catch-all) raises `TypeError: unexpected keyword argument`. -/
def unexpectedKw (params kwargs : List String) : Bool :=
  kwargs.any (fun k => !(params.contains k))

structure SheetResult where
  success : Bool
  events_created : Nat
  events_updated : Nat
  events_deleted : Nat
  total_events : Nat
deriving DecidableEq, Repr

/-- Python: `sync_single_sheet`, with the sheet's fetched rows passed in as
`values` and the calendar's state as `store`. -/
def sync_single_sheet (store : Store) (values : List (List String)) (sheetName : String) :
    SheetResult :=
  if values = [] then ⟨false, 0, 0, 0, 0⟩
  else
    let events := parse_sports_events values sheetName
    if events = [] then ⟨true, 0, 0, 0, 0⟩
    else if unexpectedKw updateCalendarParams updateCallKwargs then
      ⟨false, 0, 0, 0, 0⟩
    else
      let r := update_calendar store events
      ⟨true, r.inserted, r.changed, r.deleted, events.length⟩

/-! ## Concrete instances used by the claim theorems -/

/-- Calendar state mirroring the fixture of
`test_update_calendar_with_changes` (`test_calendar_sync.py` lines
369-411): one stored event whose description differs from the incoming
event. -/
def c1Existing : Event :=
  ⟨some "Event 1", some "Original Description", none,
    some (.dateTime "2024-02-10T15:00:00"), some (.dateTime "2024-02-10T17:00:00")⟩

def c1New : Event :=
  ⟨some "Event 1", some "Updated Description", none,
    some (.dateTime "2024-02-10T15:00:00"), some (.dateTime "2024-02-10T17:00:00")⟩

def c1Store : Store := ⟨[⟨0, c1Existing⟩], 1⟩

/-- Sheet fixture of `TestDateRangeParsing` restricted to the row
`2/17-25/2025`, which `test_too_long_range` expects to be skipped as a
range longer than 7 inclusive days. -/
def c3Sheet : List (List String) :=
  [["Test Sport"],
   ["Date", "Time", "Opponent", "Location"],
   ["2/17-25/2025", "All Day", "Too Long", "Location 8"]]

/-- Sheet with a data row whose time cell `Chalk` is non-empty, not a
placeholder, and fails to parse as a time. -/
def c5Sheet : List (List String) :=
  [["Test Sport"],
   ["Date", "Day", "Event", "Location", "Time"],
   ["3/5/2025", "Fri", "Match", "Dairy Creek", "Chalk"]]

/-- Sheet with an inverted date range (parsed end two days before the
parsed start). -/
def c6Sheet : List (List String) :=
  [["Test Sport"],
   ["Date", "Time", "Opponent", "Location"],
   ["2/17-15/2025", "All Day", "X", "L"]]

/-- Row with an inclusive date range, used by the range-to-exclusive-end
witness (columns: date, time, opponent, location). -/
def c7Row : List String := ["2/15-17/2025", "All Day", "Team B", "Away"]

/-- The all-day event the builder constructs from `c7Row`: exclusive end
2025-02-18 for the inclusive range 2025-02-15 .. 2025-02-17. -/
def c7Event : Event :=
  ⟨some "S - Team B at Away", some "Location: Away", some "Away",
    some (.date "2025-02-15"), some (.date "2025-02-18")⟩

/-- Row with a non-inverted range, used by the end-not-before-start
witness. -/
def c6GoodRow : List String := ["2/15-17/2025", "All Day", "X", "L"]

/-- The event the builder constructs from `c6GoodRow`. -/
def c6GoodEvent : Event :=
  ⟨some "S - X at L", some "Location: L", some "L",
    some (.date "2025-02-15"), some (.date "2025-02-18")⟩

/-- The Chalk row of the unparseable-time witness. -/
def c5Row : List String := ["3/5/2025", "Fri", "Match", "Dairy Creek", "Chalk"]

/-- A row whose time cell matches the time pattern but with an
out-of-range minute, so `datetime.time` raises `ValueError`. -/
def c5BadRow : List String := ["3/5/2025", "Fri", "Match", "Dairy Creek", "3:99"]

/-- Stored all-day event with description `Old`, matched by key but not
by content by `c2New`. -/
def c2Existing : Event :=
  ⟨some "A", some "Old", none, some (.date "2025-02-15"), some (.date "2025-02-16")⟩

def c2New : Event :=
  ⟨some "A", some "New", none, some (.date "2025-02-15"), some (.date "2025-02-16")⟩

def c2Store : Store := ⟨[⟨0, c2Existing⟩], 1⟩

def c2Key : String := "2025-02-15_2025-02-16_A"

/-! ## Helper lemmas about dates and the builder -/

theorem isDigitChar_ofNat_digit (k : Nat) (hk : k < 10) :
    isDigitChar (Char.ofNat (48 + k)) = true ∧ (Char.ofNat (48 + k)).toNat - 48 = k := by
  interval_cases k <;> decide

theorem isDigitChar_digitChar (n : Nat) : isDigitChar (digitChar n) = true := by
  have h := isDigitChar_ofNat_digit (n % 10) (Nat.mod_lt _ (by omega))
  simpa [digitChar] using h.1

theorem digitVal_digitChar (n : Nat) : digitVal (digitChar n) = n % 10 := by
  have h := isDigitChar_ofNat_digit (n % 10) (Nat.mod_lt _ (by omega))
  simpa [digitChar, digitVal] using h.2

theorem daysInMonth_le_31 (y m : Nat) : daysInMonth y m ≤ 31 := by
  unfold daysInMonth
  split <;> first | omega | split <;> omega

theorem daysInMonth_pos (y m : Nat) (h1 : 1 ≤ m) (h2 : m ≤ 12) :
    1 ≤ daysInMonth y m := by
  unfold daysInMonth
  split <;> first
    | omega
    | (split <;> omega)
    | (exfalso; interval_cases m <;> simp_all)

theorem mkDate?_some {y m d : Nat} {x : Date} (h : mkDate? y m d = some x) :
    ValidDate x ∧ x = ⟨y, m, d⟩ := by
  unfold mkDate? at h
  split at h
  · rename_i hv
    injection h with h2
    subst h2
    exact ⟨hv, rfl⟩
  · exact absurd h (by simp)

/-- Formatting a valid date and parsing it back is the identity. -/
theorem parseIsoDate_fmtDate (d : Date) (h : ValidDate d) :
    parseIsoDate (fmtDate d) = some d := by
  obtain ⟨h1, h2, h3, h4, h5, h6⟩ := h
  have hd31 : d.day ≤ 31 := le_trans h6 (daysInMonth_le_31 _ _)
  have hmk : ∀ a b c : Nat, a = d.year → b = d.month → c = d.day →
      mkDate? a b c = some d := by
    intro a b c ha hb hc
    subst ha; subst hb; subst hc
    unfold mkDate?
    rw [if_pos ⟨h1, h2, h3, h4, h5, h6⟩]
  unfold fmtDate parseIsoDate ofChars pad4 pad2
  simp only [List.cons_append, List.nil_append, isDigitChar_digitChar, digitVal_digitChar,
    Bool.and_true, Bool.true_and, beq_self_eq_true, if_true]
  exact hmk _ _ _ (by omega) (by omega) (by omega)

theorem dateSucc?_valid {d d' : Date} (h : ValidDate d) (hs : dateSucc? d = some d') :
    ValidDate d' := by
  obtain ⟨h1, h2, h3, h4, h5, h6⟩ := h
  unfold dateSucc? at hs
  split at hs
  · rename_i hlt
    injection hs with hs; subst hs
    exact ⟨h1, h2, h3, h4, Nat.le_add_left 1 d.day, hlt⟩
  · split at hs
    · rename_i hm12
      injection hs with hs; subst hs
      exact ⟨h1, h2, Nat.le_add_left 1 d.month, hm12, le_refl 1,
        daysInMonth_pos d.year (d.month + 1) (Nat.le_add_left 1 d.month) hm12⟩
    · split at hs
      · rename_i hy
        injection hs with hs; subst hs
        exact ⟨Nat.le_add_left 1 d.year, hy, le_refl 1, show (1 : Nat) ≤ 12 by omega,
          le_refl 1, show (1 : Nat) ≤ 31 by omega⟩
      · exact absurd hs (by simp)

theorem dateSucc?_key_lt {d d' : Date} (h : ValidDate d) (hs : dateSucc? d = some d') :
    dateKey d < dateKey d' := by
  obtain ⟨h1, h2, h3, h4, h5, h6⟩ := h
  have hd31 : d.day ≤ 31 := le_trans h6 (daysInMonth_le_31 _ _)
  unfold dateSucc? at hs
  split at hs
  · injection hs with hs; subst hs
    simp only [dateKey]
    omega
  · split at hs
    · injection hs with hs; subst hs
      simp only [dateKey]
      omega
    · split at hs
      · injection hs with hs; subst hs
        simp only [dateKey]
        omega
      · exact absurd hs (by simp)

/-- Success of `parse_date` only produces dates validated by the
`datetime` constructor. -/
theorem parse_date_valid {str : String} {s : Date} {e? : Option Date}
    (h : parse_date str = some (s, e?)) :
    ValidDate s ∧ ∀ e, e? = some e → ValidDate e := by
  unfold parse_date parseDateChars at h
  split at h
  · exact absurd h (by simp)
  · split at h
    · split at h
      · rename_i ha hb
        injection h with h
        injection h with hx hy
        subst hx; subst hy
        refine ⟨(mkDate?_some ha).1, ?_⟩
        intro e he; injection he with he; subst he
        exact (mkDate?_some hb).1
      · exact absurd h (by simp)
    · split at h
      · rename_i hinner
        injection h with h
        injection h with hx hy
        subst hx; subst hy
        split at hinner
        · exact ⟨(mkDate?_some hinner).1, by intro e he; cases he⟩
        · exact absurd hinner (by simp)
      · split at h
        · rename_i hmap
          rw [Option.map_eq_some'] at h
          obtain ⟨a, ha, hae⟩ := h
          injection hae with hx hy
          subst hx; subst hy
          exact ⟨(mkDate?_some ha).1, by intro e he; cases he⟩
        · exact absurd h (by simp)

/-- Failure of the date-cell parse always skips the row. -/
theorem buildRow_none_of_parse_fail (sport : String) (di ei li : Nat) (ti : Option Nat)
    (row : List String) (hpf : parse_date (row.getD di "") = none) :
    buildRow sport di ei li ti row = none := by
  unfold buildRow
  split
  · rfl
  · split
    · rfl
    · rw [hpf]

/-- Success shape of `buildRow`: the all-day event the source constructs. -/
theorem buildRow_eq_some (sport : String) (di ei li : Nat) (ti : Option Nat)
    (row : List String) (s : Date) (e? : Option Date) (pt : Option ClockHM) (e1 : Date)
    (hlen : ¬(row.length < max di (max ei li) + 1))
    (hd : ¬(row.getD di "" = "")) (he : ¬(row.getD ei "" = ""))
    (hl : ¬(row.getD li "" = ""))
    (hparse : parse_date (row.getD di "") = some (s, e?))
    (htime : extract_first_time (timeCell ti row) = some pt)
    (hsucc : dateSucc? (e?.getD s) = some e1) :
    buildRow sport di ei li ti row =
      some ⟨some (sport ++ " - " ++ row.getD ei "" ++ " at " ++ row.getD li ""),
            some ("Location: " ++ row.getD li "" ++ timeNote pt (timeCell ti row)),
            some (row.getD li ""),
            some (.date (fmtDate s)), some (.date (fmtDate e1))⟩ := by
  have hcells : ¬(row.getD di "" = "" ∨ row.getD ei "" = "" ∨ row.getD li "" = "") :=
    fun hcon => hcon.elim hd (fun h2 => h2.elim he hl)
  cases e? with
  | none =>
    have hs2 : dateSucc? s = some e1 := by simpa using hsucc
    unfold buildRow
    rw [if_neg hlen, if_neg hcells]
    simp only [hparse, htime, hs2]
  | some e =>
    have hs2 : dateSucc? e = some e1 := by simpa using hsucc
    unfold buildRow
    rw [if_neg hlen, if_neg hcells]
    simp only [hparse, htime, hs2]

/-- Inversion of a successful `buildRow`: the date cell parsed, the time
cell did not raise, the exclusive end date exists, and the event has
exactly the constructed shape. -/
theorem buildRow_inv (sport : String) (di ei li : Nat) (ti : Option Nat)
    (row : List String) (ev : Event)
    (hbuild : buildRow sport di ei li ti row = some ev) :
    ∃ (s : Date) (e? : Option Date) (pt : Option ClockHM) (e1 : Date),
      parse_date (row.getD di "") = some (s, e?) ∧
      extract_first_time (timeCell ti row) = some pt ∧
      dateSucc? (e?.getD s) = some e1 ∧
      ev = ⟨some (sport ++ " - " ++ row.getD ei "" ++ " at " ++ row.getD li ""),
            some ("Location: " ++ row.getD li "" ++ timeNote pt (timeCell ti row)),
            some (row.getD li ""),
            some (.date (fmtDate s)), some (.date (fmtDate e1))⟩ := by
  unfold buildRow at hbuild
  split at hbuild
  · exact absurd hbuild (by simp)
  · split at hbuild
    · exact absurd hbuild (by simp)
    · split at hbuild
      · exact absurd hbuild (by simp)
      · rename_i s e? hparse
        split at hbuild
        · exact absurd hbuild (by simp)
        · rename_i pt htime
          split at hbuild
          · exact absurd hbuild (by simp)
          · rename_i e1 hsucc
            refine ⟨s, e?, pt, e1, hparse, htime, ?_, ?_⟩
            · cases e? with
              | none => simpa using hsucc
              | some e => simpa using hsucc
            · injection hbuild with hbuild
              exact hbuild.symm

/-- Claim C1 (the idempotence contract of the spec, violated by the
code).  With one existing event matched by key but differing in
description, the first `update_calendar` pass reports one delete and one
update: the changed key is also placed in the delete set, the stored
event is deleted, and the subsequent update call targets a now-missing id
and fails, so the event is gone.  The second pass with the same
`newEvents` therefore re-inserts it and reports `(deleted, inserted,
changed) = (0, 1, 0)`, not `(0, 0, 0)`.  The first pass also contradicts
`test_update_calendar_with_changes`, which asserts that no delete is
issued in this scenario. -/
theorem c1_second_pass_not_zero :
    (update_calendar c1Store [c1New]).deleted = 1 ∧
    (update_calendar c1Store [c1New]).inserted = 0 ∧
    (update_calendar c1Store [c1New]).changed = 1 ∧
    (update_calendar c1Store [c1New]).store.events = [] ∧
    (update_calendar (update_calendar c1Store [c1New]).store [c1New]).deleted = 0 ∧
    (update_calendar (update_calendar c1Store [c1New]).store [c1New]).inserted = 1 ∧
    (update_calendar (update_calendar c1Store [c1New]).store [c1New]).changed = 0 := by
  decide

/-- Claim C3 (the 7-day range guard of the spec, absent from the code).
The date cell `2/17-25/2025` parses to an inclusive range of 9 days and
`parse_sports_events` emits an event for the row instead of rejecting it,
contradicting `test_too_long_range`. -/
theorem c3_long_range_not_rejected :
    parse_date "2/17-25/2025" = some (⟨2025, 2, 17⟩, some ⟨2025, 2, 25⟩) ∧
    dayIndex ⟨2025, 2, 25⟩ - dayIndex ⟨2025, 2, 17⟩ + 1 = 9 ∧
    parse_sports_events c3Sheet "Test Sheet" =
      [⟨some "Test Sport - Too Long at Location 8", some "Location: Location 8",
        some "Location 8", some (.date "2025-02-17"), some (.date "2025-02-26")⟩] := by
  decide

/-- Claim C4 (cross-month / cross-year handling of the spec, absent from
the code).  On the year-transition range `12/31-1/2` (the input of
`test_year_transition_range`) the main `parse_date` raises instead of
parsing, and the service-account `parse_date` keeps the end date in the
same year (no next-year rollover, end before start); on `2/17-15/2025`,
where the end day is less than the start day within one month, the end
month is not advanced. -/
theorem c4_no_rollover :
    parse_date "12/31-1/2" = none ∧
    parse_date_sa 2025 "12/31-1/2" = some (⟨2025, 12, 31⟩, some ⟨2025, 1, 2⟩) ∧
    parse_date "2/17-15/2025" = some (⟨2025, 2, 17⟩, some ⟨2025, 2, 15⟩) := by
  decide

/-- Claim C5, counterexample.  For the row with unparseable time cell
`Chalk`, the builder emits a date-only (all-day) event with no time at
all — in particular not a 15:30 timed start, refuting the claimed
fixed-default-time fallback. -/
theorem c5_counterexample :
    extract_first_time "Chalk" = some none ∧
    parse_sports_events c5Sheet "Golf" =
      [⟨some "Test Sport - Match at Dairy Creek", some "Location: Dairy Creek",
        some "Dairy Creek", some (.date "2025-03-05"), some (.date "2025-03-06")⟩] := by
  decide

/-- Claim C6, counterexample.  The row `2/17-15/2025` parses to an
inverted range and the builder emits the event uncorrected: its end date
2025-02-16 is chronologically before its start date 2025-02-17, and the
row is neither fixed nor rejected by the builder. -/
theorem c6_counterexample :
    parse_sports_events c6Sheet "S" =
      [⟨some "Test Sport - X at L", some "Location: L", some "L",
        some (.date "2025-02-17"), some (.date "2025-02-16")⟩] ∧
    dateStrLt "2025-02-16" "2025-02-17" = true := by
  decide

/-- Claim C10.  Whenever a sheet parses to a non-empty event list,
`sync_single_sheet` reaches the `update_calendar` call, whose keyword
argument `return_detailed_changes` is not accepted by the callee
signature, so the call raises `TypeError` and the sheet is reported as a
failure (`success = false`). -/
theorem c10_sync_single_sheet_fails (store : Store) (values : List (List String))
    (nm : String) (h : parse_sports_events values nm ≠ []) :
    (sync_single_sheet store values nm).success = false := by
  have hv : ¬(values = []) := by
    intro hv
    exact h (by simp [hv, parse_sports_events])
  unfold sync_single_sheet
  rw [if_neg hv, if_neg h, if_pos (by decide)]

/-- Witness for C10 at a concrete sheet with one well-formed row. -/
theorem c10_witness :
    parse_sports_events [["Basketball"], ["Date", "Day", "Event", "Location", "Time"],
        ["2/10/2024", "Mon", "Team A", "Home", "3:00 PM"]] "Basketball" ≠ [] ∧
    (sync_single_sheet ⟨[], 0⟩ [["Basketball"], ["Date", "Day", "Event", "Location", "Time"],
        ["2/10/2024", "Mon", "Team A", "Home", "3:00 PM"]] "Basketball").success = false :=
  ⟨by decide, c10_sync_single_sheet_fails ⟨[], 0⟩ _ _ (by decide)⟩

/-- Claim C5, amended.  For a well-formed row, the time cell decides the
fate of the row in exactly two ways and neither applies a 15:30 default:
when the pattern finds no time at all (`extract_first_time` returns
`some none`) the builder still emits the row as an all-day event whose
description carries no time line; when the first match carries an
out-of-range value (`extract_first_time` returns `none`, modelling the
`ValueError` raised by `datetime.time`) the per-row `except` skips the
row and nothing is emitted. -/
theorem c5_unparseable_time_gives_all_day (sport : String) (di ei li : Nat)
    (ti : Option Nat) (row : List String) (s : Date) (e? : Option Date) (e1 : Date)
    (hlen : ¬(row.length < max di (max ei li) + 1))
    (hd : ¬(row.getD di "" = "")) (he : ¬(row.getD ei "" = ""))
    (hl : ¬(row.getD li "" = ""))
    (hparse : parse_date (row.getD di "") = some (s, e?))
    (hsucc : dateSucc? (e?.getD s) = some e1) :
    (extract_first_time (timeCell ti row) = some none →
      buildRow sport di ei li ti row =
        some ⟨some (sport ++ " - " ++ row.getD ei "" ++ " at " ++ row.getD li ""),
              some ("Location: " ++ row.getD li "" ++ timeNote none (timeCell ti row)),
              some (row.getD li ""),
              some (.date (fmtDate s)), some (.date (fmtDate e1))⟩) ∧
    (extract_first_time (timeCell ti row) = none →
      buildRow sport di ei li ti row = none) := by
  constructor
  · intro htime
    exact buildRow_eq_some sport di ei li ti row s e? none e1 hlen hd he hl hparse htime hsucc
  · intro htime
    unfold buildRow
    rw [if_neg hlen,
      if_neg (fun hor => hor.elim hd (fun h2 => h2.elim he hl)), hparse, htime]

/-- Witness for the amended C5: the Chalk row is emitted all-day with
description `Location: Dairy Creek` and no time line, while the row with
time cell `3:99` (minute out of range, `ValueError`) is skipped. -/
theorem c5_witness :
    (¬(c5Row.length < max 0 (max 2 3) + 1) ∧
     ¬(c5Row.getD 0 "" = "") ∧ ¬(c5Row.getD 2 "" = "") ∧ ¬(c5Row.getD 3 "" = "") ∧
     parse_date (c5Row.getD 0 "") = some (⟨2025, 3, 5⟩, none) ∧
     dateSucc? ((none : Option Date).getD ⟨2025, 3, 5⟩) = some ⟨2025, 3, 6⟩ ∧
     extract_first_time (timeCell (some 4) c5Row) = some none ∧
     buildRow "Test Sport" 0 2 3 (some 4) c5Row =
       some ⟨some ("Test Sport" ++ " - " ++ c5Row.getD 2 "" ++ " at " ++ c5Row.getD 3 ""),
             some ("Location: " ++ c5Row.getD 3 "" ++ timeNote none (timeCell (some 4) c5Row)),
             some (c5Row.getD 3 ""),
             some (.date (fmtDate ⟨2025, 3, 5⟩)), some (.date (fmtDate ⟨2025, 3, 6⟩))⟩) ∧
    (¬(c5BadRow.length < max 0 (max 2 3) + 1) ∧
     ¬(c5BadRow.getD 0 "" = "") ∧ ¬(c5BadRow.getD 2 "" = "") ∧ ¬(c5BadRow.getD 3 "" = "") ∧
     parse_date (c5BadRow.getD 0 "") = some (⟨2025, 3, 5⟩, none) ∧
     dateSucc? ((none : Option Date).getD ⟨2025, 3, 5⟩) = some ⟨2025, 3, 6⟩ ∧
     extract_first_time (timeCell (some 4) c5BadRow) = none ∧
     buildRow "Test Sport" 0 2 3 (some 4) c5BadRow = none) :=
  ⟨⟨by decide, by decide, by decide, by decide, by decide, by decide, by decide,
    (c5_unparseable_time_gives_all_day "Test Sport" 0 2 3 (some 4) c5Row
      ⟨2025, 3, 5⟩ none ⟨2025, 3, 6⟩ (by decide) (by decide) (by decide) (by decide)
      (by decide) (by decide)).1 (by decide)⟩,
   ⟨by decide, by decide, by decide, by decide, by decide, by decide, by decide,
    (c5_unparseable_time_gives_all_day "Test Sport" 0 2 3 (some 4) c5BadRow
      ⟨2025, 3, 5⟩ none ⟨2025, 3, 6⟩ (by decide) (by decide) (by decide) (by decide)
      (by decide) (by decide)).2 (by decide)⟩⟩

/-- Claim C7.  Every event the builder emits is an all-day event whose
start is the formatted parsed start date and whose exclusive end is the
last inclusive day plus one: the parsed end date for a range, the start
date itself for a single date, each advanced by one day. -/
theorem c7_exclusive_end_date (sport : String) (di ei li : Nat) (ti : Option Nat)
    (row : List String) (s : Date) (e? : Option Date) (ev : Event)
    (hparse : parse_date (row.getD di "") = some (s, e?))
    (hbuild : buildRow sport di ei li ti row = some ev) :
    ∃ e1, dateSucc? (e?.getD s) = some e1 ∧
      ev.start = some (.date (fmtDate s)) ∧ ev.«end» = some (.date (fmtDate e1)) := by
  obtain ⟨s2, e2?, pt, e1, hp2, ht2, hs2, hev⟩ := buildRow_inv _ _ _ _ _ _ _ hbuild
  rw [hparse] at hp2
  injection hp2 with hp2
  injection hp2 with ha hb
  subst ha; subst hb
  exact ⟨e1, hs2, by rw [hev], by rw [hev]⟩

/-- Witness for C7 at the inclusive range 2025-02-15 .. 2025-02-17: the
built event has `start.date = 2025-02-15` and `end.date = 2025-02-18`. -/
theorem c7_witness :
    parse_date (c7Row.getD 0 "") = some (⟨2025, 2, 15⟩, some ⟨2025, 2, 17⟩) ∧
    buildRow "S" 0 2 3 (some 1) c7Row = some c7Event ∧
    c7Event.«end» = some (.date "2025-02-18") ∧
    ∃ e1, dateSucc? ((some (⟨2025, 2, 17⟩ : Date)).getD ⟨2025, 2, 15⟩) = some e1 ∧
      c7Event.start = some (.date (fmtDate ⟨2025, 2, 15⟩)) ∧
      c7Event.«end» = some (.date (fmtDate e1)) :=
  ⟨by decide, by decide, by decide,
    c7_exclusive_end_date "S" 0 2 3 (some 1) c7Row ⟨2025, 2, 15⟩ (some ⟨2025, 2, 17⟩)
      c7Event (by decide) (by decide)⟩

/-- Claim C6, amended.  For every event the builder emits from a row
whose parsed date range is not inverted (single dates, or ranges with
start ≤ end), the end date is never chronologically before the start
date; an inverted range, however, is emitted uncorrected (see the
counterexample), rejected only later by the validation inside
`update_calendar`. -/
theorem c6_end_not_before_start (sport : String) (di ei li : Nat) (ti : Option Nat)
    (row : List String) (s : Date) (e? : Option Date) (ev : Event)
    (hparse : parse_date (row.getD di "") = some (s, e?))
    (hbuild : buildRow sport di ei li ti row = some ev)
    (hord : ∀ e, e? = some e → dateLeB s e = true) :
    ∃ a b, ev.start = some (.date a) ∧ ev.«end» = some (.date b) ∧
      dateStrLt b a = false := by
  obtain ⟨s2, e2?, pt, e1, hp2, ht2, hs2, hev⟩ := buildRow_inv _ _ _ _ _ _ _ hbuild
  rw [hparse] at hp2
  injection hp2 with hp2
  injection hp2 with ha hb
  subst ha; subst hb
  obtain ⟨hvs, hve⟩ := parse_date_valid hparse
  have hbase : ValidDate (e?.getD s) := by
    cases e? with
    | none => simpa using hvs
    | some e => simpa using hve e rfl
  have hv1 : ValidDate e1 := dateSucc?_valid hbase hs2
  have hklt : dateKey (e?.getD s) < dateKey e1 := dateSucc?_key_lt hbase hs2
  have hsle : dateKey s ≤ dateKey (e?.getD s) := by
    cases e? with
    | none => simp
    | some e =>
      have h2 := hord e rfl
      simp only [dateLeB, decide_eq_true_eq] at h2
      simpa using h2
  refine ⟨fmtDate s, fmtDate e1, by rw [hev], by rw [hev], ?_⟩
  unfold dateStrLt
  rw [parseIsoDate_fmtDate e1 hv1, parseIsoDate_fmtDate s hvs]
  simp only [dateLtB, decide_eq_true_eq, decide_eq_false_iff_not]
  omega

/-- Witness for the amended C6 at the non-inverted range
2025-02-15 .. 2025-02-17. -/
theorem c6_witness :
    parse_date (c6GoodRow.getD 0 "") = some (⟨2025, 2, 15⟩, some ⟨2025, 2, 17⟩) ∧
    buildRow "S" 0 2 3 (some 1) c6GoodRow = some c6GoodEvent ∧
    (∀ e, (some (⟨2025, 2, 17⟩ : Date) : Option Date) = some e →
      dateLeB ⟨2025, 2, 15⟩ e = true) ∧
    ∃ a b, c6GoodEvent.start = some (.date a) ∧ c6GoodEvent.«end» = some (.date b) ∧
      dateStrLt b a = false :=
  ⟨by decide, by decide,
    fun e he => by injection he with he; rw [← he]; decide,
    c6_end_not_before_start "S" 0 2 3 (some 1) c6GoodRow ⟨2025, 2, 15⟩
      (some ⟨2025, 2, 17⟩) c6GoodEvent (by decide) (by decide)
      (fun e he => by injection he with he; rw [← he]; decide)⟩

theorem isOffsetChars_length {cs : List Char} (h : isOffsetChars cs = true) :
    cs.length = 6 := by
  unfold isOffsetChars at h
  split at h
  · simp
  · exact absurd h (by simp)

/-- Stripping the trailing-offset pattern from a string that ends in a
UTC offset removes exactly that offset. -/
theorem stripTrailingOffset_append (b o : String) (h : isOffsetChars o.data = true) :
    stripTrailingOffset (b ++ o) = b := by
  have hlen : o.data.length = 6 := isOffsetChars_length h
  have hsub : b.data.length + 6 - 6 = b.data.length := by omega
  unfold stripTrailingOffset
  rw [String.data_append, List.length_append, hlen, hsub, List.drop_left, if_pos h,
    List.take_left]
  rfl

/-- Claim C8.  First part: two events with identical summary and
description whose timed start and end strings differ only in trailing
UTC-offset suffixes compare equal.  Second part: when one start is
date-only and the other is timestamped (ends and the other fields
agreeing), equality holds exactly when the date equals the date portion
of the timestamp — only the date portion of the timestamped side is
compared. -/
theorem c8_events_are_equal_offset_insensitive :
    (∀ (e1 e2 : Event) (bs be o1 o2 p1 p2 : String),
      e1.summary = e2.summary → e1.description = e2.description →
      isOffsetChars o1.data = true → isOffsetChars o2.data = true →
      isOffsetChars p1.data = true → isOffsetChars p2.data = true →
      e1.start = some (.dateTime (bs ++ o1)) → e2.start = some (.dateTime (bs ++ o2)) →
      e1.«end» = some (.dateTime (be ++ p1)) → e2.«end» = some (.dateTime (be ++ p2)) →
      events_are_equal e1 e2 = some true) ∧
    (∀ (e1 e2 : Event) (d dt x : String),
      e1.summary = e2.summary → e1.description = e2.description →
      d ≠ "" →
      e1.start = some (.date d) → e2.start = some (.dateTime dt) →
      e1.«end» = some (.date x) → e2.«end» = some (.date x) →
      (events_are_equal e1 e2 = some true ↔ d = takeBeforeT dt)) := by
  constructor
  · intro e1 e2 bs be o1 o2 p1 p2 hsum hdesc ho1 ho2 hp1 hp2 hs1 hs2 he1 he2
    have k1 := stripTrailingOffset_append bs o1 ho1
    have k2 := stripTrailingOffset_append bs o2 ho2
    have k3 := stripTrailingOffset_append be p1 hp1
    have k4 := stripTrailingOffset_append be p2 hp2
    simp [events_are_equal, hsum, hdesc, hs1, hs2, he1, he2, tsCompareEq, k1, k2, k3, k4]
  · intro e1 e2 d dt x hsum hdesc hd hs1 hs2 he1 he2
    by_cases hdd : d = takeBeforeT dt
    · subst hdd
      simp [events_are_equal, hsum, hdesc, hs1, hs2, he1, he2, tsCompareEq, datePortion, hd]
    · have hb : (d == takeBeforeT dt) = false := by
        simp [hdd]
      simp [events_are_equal, hsum, hdesc, hs1, hs2, he1, he2, tsCompareEq, datePortion,
        hd, hb, hdd]

/-- Witness for C8: concrete timed events differing only in the offsets
-07:00 and -08:00, and a date-only versus timestamped pair. -/
theorem c8_witness :
    (isOffsetChars ("-07:00" : String).data = true ∧
     isOffsetChars ("-08:00" : String).data = true ∧
     events_are_equal
       ⟨some "Test Event", some "Test Description", none,
         some (.dateTime ("2025-03-15T14:00:00" ++ "-07:00")),
         some (.dateTime ("2025-03-15T16:00:00" ++ "-07:00"))⟩
       ⟨some "Test Event", some "Test Description", none,
         some (.dateTime ("2025-03-15T14:00:00" ++ "-08:00")),
         some (.dateTime ("2025-03-15T16:00:00" ++ "-08:00"))⟩ = some true) ∧
    (("2025-03-15" : String) ≠ "" ∧
     (events_are_equal
       ⟨some "Test Event", some "Test Description", none,
         some (.date "2025-03-15"), some (.date "2025-03-16")⟩
       ⟨some "Test Event", some "Test Description", none,
         some (.dateTime "2025-03-15T00:00:00-07:00"), some (.date "2025-03-16")⟩ =
       some true ↔ ("2025-03-15" : String) = takeBeforeT "2025-03-15T00:00:00-07:00")) :=
  ⟨⟨by decide, by decide,
    c8_events_are_equal_offset_insensitive.1
      ⟨some "Test Event", some "Test Description", none,
        some (.dateTime ("2025-03-15T14:00:00" ++ "-07:00")),
        some (.dateTime ("2025-03-15T16:00:00" ++ "-07:00"))⟩
      ⟨some "Test Event", some "Test Description", none,
        some (.dateTime ("2025-03-15T14:00:00" ++ "-08:00")),
        some (.dateTime ("2025-03-15T16:00:00" ++ "-08:00"))⟩
      "2025-03-15T14:00:00" "2025-03-15T16:00:00" "-07:00" "-08:00" "-07:00" "-08:00"
      rfl rfl (by decide) (by decide) (by decide) (by decide) (by decide) (by decide)
      (by decide) (by decide)⟩,
   ⟨by decide,
    c8_events_are_equal_offset_insensitive.2
      ⟨some "Test Event", some "Test Description", none,
        some (.date "2025-03-15"), some (.date "2025-03-16")⟩
      ⟨some "Test Event", some "Test Description", none,
        some (.dateTime "2025-03-15T00:00:00-07:00"), some (.date "2025-03-16")⟩
      "2025-03-15" "2025-03-15T00:00:00-07:00" "2025-03-16"
      rfl rfl (by decide) rfl rfl rfl rfl⟩⟩

/-- Header detection scans the rows in order: with no keyword row in the
prefix and a keyword row next, it selects that row, resolving the sport
name from the rows already passed (nearest first). -/
theorem findHeader_prefix (nm : String) (hp : List (List String)) (hdr : List String)
    (rest : List (List String)) (prior : List (List String))
    (h1 : ∀ r ∈ hp, rowHasKeyword r = false) (h2 : rowHasKeyword hdr = true) :
    findHeader nm prior (hp ++ hdr :: rest) =
      some (hdr, (sportFromPrior (hp.reverse ++ prior)).getD nm, rest) := by
  induction hp generalizing prior with
  | nil =>
    have hne : hdr ≠ [] := by
      intro hcon
      rw [hcon] at h2
      exact absurd h2 (by decide)
    simp only [List.nil_append, List.reverse_nil]
    unfold findHeader
    rw [if_neg hne, if_pos h2]
  | cons r hp ih =>
    have hr : rowHasKeyword r = false := h1 r (by simp)
    have h1b : ∀ q ∈ hp, rowHasKeyword q = false := fun q hq => h1 q (by simp [hq])
    simp only [List.cons_append]
    unfold findHeader
    by_cases hre : r = []
    · rw [if_pos hre, ih _ h1b]
      simp [List.append_assoc]
    · rw [if_neg hre, if_neg (by simp [hr]), ih _ h1b]
      simp [List.append_assoc]

/-- A row mapped to `none` by the per-row builder contributes nothing:
the surrounding rows produce exactly the same events without it. -/
theorem processRows_skip (sport : String) (di ei li : Nat) (ti : Option Nat)
    (pre post : List (List String)) (bad : List String)
    (hnone : buildRow sport di ei li ti bad = none) :
    processRows sport di ei li ti (pre ++ bad :: post) =
      processRows sport di ei li ti (pre ++ post) := by
  unfold processRows
  rw [List.filterMap_append, List.filterMap_append, List.filterMap_cons_none hnone]

/-- Claim C9.  In a table whose header row is found after a
keyword-free prefix, a data row whose date cell fails to parse is
skipped and only that row: `parse_sports_events` returns exactly the
events of the table with that row removed (and, being a total function,
never propagates the per-row parse failure). -/
theorem c9_malformed_row_only_skipped (nm : String) (hp : List (List String))
    (hdr : List String) (pre post : List (List String)) (bad : List String)
    (h1 : ∀ r ∈ hp, rowHasKeyword r = false)
    (h2 : rowHasKeyword hdr = true)
    (h3 : ∀ di, (findCols hdr).dateIdx = some di → parse_date (bad.getD di "") = none) :
    parse_sports_events (hp ++ hdr :: (pre ++ bad :: post)) nm =
      parse_sports_events (hp ++ hdr :: (pre ++ post)) nm := by
  have hfh1 := findHeader_prefix nm hp hdr (pre ++ bad :: post) [] h1 h2
  have hfh2 := findHeader_prefix nm hp hdr (pre ++ post) [] h1 h2
  have hlen1 : ¬((hp ++ hdr :: (pre ++ bad :: post)).length < 2) := by
    simp [List.length_append]
    omega
  unfold parse_sports_events
  rw [if_neg hlen1, hfh1]
  by_cases hlen2 : (hp ++ hdr :: (pre ++ post)).length < 2
  · rw [if_pos hlen2]
    have hlens : hp.length + (pre.length + post.length) + 1 < 2 := by
      simpa [List.length_append] using hlen2
    have hpre : pre = [] := List.length_eq_zero.mp (by omega)
    have hpost : post = [] := List.length_eq_zero.mp (by omega)
    subst hpre; subst hpost
    cases hdi : (findCols hdr).dateIdx with
    | none => simp [hdi]
    | some di =>
      cases hei : (findCols hdr).eventIdx with
      | none => simp [hdi, hei]
      | some ei =>
        cases hli : (findCols hdr).locIdx with
        | none => simp [hdi, hei, hli]
        | some li =>
          simp only [hdi, hei, hli, List.nil_append]
          unfold processRows
          rw [List.filterMap_cons_none (buildRow_none_of_parse_fail _ di ei li _ bad
            (h3 di hdi))]
          rfl
  · rw [if_neg hlen2, hfh2]
    cases hdi : (findCols hdr).dateIdx with
    | none => simp [hdi]
    | some di =>
      cases hei : (findCols hdr).eventIdx with
      | none => simp [hdi, hei]
      | some ei =>
        cases hli : (findCols hdr).locIdx with
        | none => simp [hdi, hei, hli]
        | some li =>
          simp only [hdi, hei, hli]
          exact processRows_skip _ di ei li _ pre post bad
            (buildRow_none_of_parse_fail _ di ei li _ bad (h3 di hdi))

/-- Witness for C9: a table with one malformed data row between two
well-formed ones yields the same events as the table without it. -/
theorem c9_witness :
    (∀ r ∈ [["Basketball"]], rowHasKeyword r = false) ∧
    rowHasKeyword ["Date", "Day", "Event", "Location", "Time"] = true ∧
    (∀ di, (findCols ["Date", "Day", "Event", "Location", "Time"]).dateIdx = some di →
      parse_date ((["not a date", "Mon", "X", "Home", ""] : List String).getD di "") =
        none) ∧
    parse_sports_events
        ([["Basketball"]] ++ ["Date", "Day", "Event", "Location", "Time"] ::
          ([[ "2/10/2024", "Mon", "Team A", "Home", "3:00 PM"]] ++
            ["not a date", "Mon", "X", "Home", ""] ::
            [["2/20/2024", "Wed", "Team C", "Home", "5:00 PM"]])) "Basketball" =
      parse_sports_events
        ([["Basketball"]] ++ ["Date", "Day", "Event", "Location", "Time"] ::
          ([[ "2/10/2024", "Mon", "Team A", "Home", "3:00 PM"]] ++
            [["2/20/2024", "Wed", "Team C", "Home", "5:00 PM"]])) "Basketball" :=
  ⟨by decide, by decide, by decide,
    c9_malformed_row_only_skipped "Basketball" [["Basketball"]]
      ["Date", "Day", "Event", "Location", "Time"]
      [["2/10/2024", "Mon", "Team A", "Home", "3:00 PM"]]
      [["2/20/2024", "Wed", "Team C", "Home", "5:00 PM"]]
      ["not a date", "Mon", "X", "Home", ""]
      (by decide) (by decide) (by decide)⟩

/-! ## Lemmas about the reconciliation engine (for claim C2) -/

theorem dictFind_mem {d : List (String × StoredEvent)} {k : String} {v : StoredEvent}
    (h : dictFind d k = some v) : (k, v) ∈ d := by
  unfold dictFind at h
  rw [Option.map_eq_some'] at h
  obtain ⟨⟨a, b⟩, hfind, hsnd⟩ := h
  have hmem := List.mem_of_find?_eq_some hfind
  have hp := List.find?_some hfind
  have ha : a = k := by simpa using hp
  have hb : b = v := by simpa using hsnd
  rw [← ha, ← hb]
  exact hmem

theorem mem_dictInsert {d : List (String × StoredEvent)} {k : String} {v : StoredEvent}
    {p : String × StoredEvent} (h : p ∈ dictInsert d k v) : p ∈ d ∨ p = (k, v) := by
  unfold dictInsert at h
  split at h
  · rw [List.mem_map] at h
    obtain ⟨q, hq, hpq⟩ := h
    by_cases hqk : (q.1 == k) = true
    · right
      rw [if_pos hqk] at hpq
      exact hpq.symm
    · left
      rw [if_neg hqk] at hpq
      rw [← hpq]
      exact hq
  · rw [List.mem_append] at h
    rcases h with h | h
    · exact Or.inl h
    · exact Or.inr (by simpa using h)

theorem existingDictAux_mem (S : List StoredEvent) :
    ∀ (l : List StoredEvent) (acc : List (String × StoredEvent)),
      (∀ p ∈ acc, p.2 ∈ S) → (∀ se ∈ l, se ∈ S) →
      ∀ p ∈ l.foldl
        (fun d se =>
          match se.ev.start, se.ev.«end» with
          | some _, some _ =>
            match get_event_key se.ev with
            | some k => dictInsert d k se
            | none => d
          | _, _ => d) acc, p.2 ∈ S := by
  intro l
  induction l with
  | nil =>
    intro acc hacc _ p hp
    exact hacc p hp
  | cons se l ih =>
    intro acc hacc hl p hp
    simp only [List.foldl_cons] at hp
    refine ih _ ?_ (fun x hx => hl x (by simp [hx])) p hp
    intro q hq
    split at hq
    · split at hq
      · rcases mem_dictInsert hq with h | h
        · exact hacc q h
        · rw [h]
          exact hl se (by simp)
      · exact hacc q hq
    · exact hacc q hq

/-- Every value in the rebuilt key dictionary is one of the stored
events. -/
theorem existingDict_mem {store : Store} {p : String × StoredEvent}
    (hp : p ∈ existingDict store) : p.2 ∈ store.events := by
  unfold existingDict at hp
  exact existingDictAux_mem store.events store.events [] (by simp) (fun se h => h) p hp

/-- Inversion: a key is marked kept only by a processed event whose key
it is and that compares equal to the snapshot entry. -/
theorem classifyEvent_keep_inv {dict : List (String × StoredEvent)} {e : Event}
    {k : String} (h : classifyEvent dict e = some (.keepKey k)) :
    ∃ e2, processedVersion e = some e2 ∧ get_event_key e2 = some k ∧
      ∃ sv, dictFind dict k = some sv ∧ events_are_equal e2 sv.ev = some true := by
  unfold classifyEvent at h
  split at h
  · exact absurd h (by simp)
  · rename_i e2 hp
    split at h
    · exact absurd h (by simp)
    · rename_i k2 hk
      split at h
      · rename_i sv hfind
        split at h
        · rename_i heq
          injection h with h
          injection h with h
          subst h
          exact ⟨e2, hp, hk, sv, hfind, heq⟩
        · exact absurd h (by simp)
        · exact absurd h (by simp)
      · exact absurd h (by simp)

theorem applyDeletes_sub (dict : List (String × StoredEvent)) :
    ∀ (dels : List String) (st : Store) (x : StoredEvent),
      x ∈ (applyDeletes dict st dels).events → x ∈ st.events := by
  intro dels
  induction dels with
  | nil =>
    intro st x hx
    exact hx
  | cons a ds ih =>
    intro st x hx
    unfold applyDeletes at hx
    have hx2 := ih _ x hx
    split at hx2
    · unfold storeDeleteId at hx2
      exact (List.mem_filter.mp hx2).1
    · exact hx2

theorem applyDeletes_nextId (dict : List (String × StoredEvent)) :
    ∀ (dels : List String) (st : Store),
      (applyDeletes dict st dels).nextId = st.nextId := by
  intro dels
  induction dels with
  | nil =>
    intro st
    rfl
  | cons a ds ih =>
    intro st
    unfold applyDeletes
    rw [ih]
    split <;> rfl

/-- Once a key in the delete set maps to a stored event, that id is gone
from the store the delete pass produces. -/
theorem applyDeletes_removes (dict : List (String × StoredEvent)) (k : String)
    (se : StoredEvent) (hfind : dictFind dict k = some se) :
    ∀ (dels : List String) (st : Store), k ∈ dels →
      ∀ x ∈ (applyDeletes dict st dels).events, x.id ≠ se.id := by
  intro dels
  induction dels with
  | nil =>
    intro st hk
    cases hk
  | cons a ds ih =>
    intro st hk x hx
    unfold applyDeletes at hx
    by_cases hak : a = k
    · subst hak
      rw [hfind] at hx
      have hx2 := applyDeletes_sub dict ds _ x hx
      unfold storeDeleteId at hx2
      have := (List.mem_filter.mp hx2).2
      simpa using this
    · rcases List.mem_cons.mp hk with h | h
      · exact absurd h.symm hak
      · exact ih _ h x hx

/-- The insert pass assigns only fresh ids, so an id below the counter
that is absent stays absent. -/
theorem applyInserts_noId :
    ∀ (ins : List Event) (st : Store) (i : Nat),
      (∀ x ∈ st.events, x.id ≠ i) → i < st.nextId →
      ∀ x ∈ (applyInserts st ins).events, x.id ≠ i := by
  intro ins
  induction ins with
  | nil =>
    intro st i hst _ x hx
    exact hst x hx
  | cons e es ih =>
    intro st i hst hi x hx
    unfold applyInserts at hx
    split at hx
    · rename_i e2 hpe
      refine ih _ i ?_ ?_ x hx
      · intro y hy
        unfold storeInsert at hy
        rcases List.mem_append.mp hy with h | h
        · exact hst y h
        · have hy2 : y.id = st.nextId := by
            simp at h
            rw [h]
          omega
      · show i < st.nextId + 1
        omega
    · exact ih _ i hst hi x hx

/-- Claim C2.  Let a processed new event `e` with key `k` match a
snapshot entry `se` without comparing equal, and let no event of the
batch mark `k` kept.  Then `e` is queued for update, `k` is in the
delete set, the deleted count returned by `update_calendar` is the size
of that delete set (so it counts `k`), keys are marked kept only by
events comparing equal to their snapshot entry, and by the time the
update pass runs — after deletes and inserts — no event with the stored
id is left in the store, so the update of that key targets a deleted
event. -/
theorem c2_updated_keys_are_deleted (st : Store) (evs : List Event) (e : Event)
    (k : String) (se : StoredEvent)
    (hwf : ∀ x ∈ st.events, x.id < st.nextId)
    (he : e ∈ evs)
    (hp : processedVersion e = some e)
    (hk : get_event_key e = some k)
    (hfind : dictFind (existingDict st) k = some se)
    (hne : events_are_equal e se.ev = some false)
    (hall : ∀ e2 ∈ evs, ∀ e3 ∈ (processedVersion e2).toList,
      get_event_key e3 = some k → events_are_equal e3 se.ev ≠ some true) :
    e ∈ chgEvents (existingDict st) evs ∧
    k ∈ delKeys (existingDict st) (keepKeys (existingDict st) evs) ∧
    (update_calendar st evs).deleted =
      (delKeys (existingDict st) (keepKeys (existingDict st) evs)).length ∧
    (∀ k2 ∈ keepKeys (existingDict st) evs, ∃ e2 ∈ evs, ∃ e3,
      processedVersion e2 = some e3 ∧ get_event_key e3 = some k2 ∧
      ∃ sv, dictFind (existingDict st) k2 = some sv ∧
        events_are_equal e3 sv.ev = some true) ∧
    (∀ x ∈ (applyInserts
        (applyDeletes (existingDict st) st
          (delKeys (existingDict st) (keepKeys (existingDict st) evs)))
        (insEvents (existingDict st) evs)).events, x.id ≠ se.id) := by
  have hcls : classifyEvent (existingDict st) e = some (.chg e) := by
    simp only [classifyEvent, hp, hk, hfind, hne]
  have hkeepinv : ∀ k2 ∈ keepKeys (existingDict st) evs, ∃ e2 ∈ evs, ∃ e3,
      processedVersion e2 = some e3 ∧ get_event_key e3 = some k2 ∧
      ∃ sv, dictFind (existingDict st) k2 = some sv ∧
        events_are_equal e3 sv.ev = some true := by
    intro k2 hk2
    unfold keepKeys at hk2
    rw [List.mem_filterMap] at hk2
    obtain ⟨e2, he2, hcl⟩ := hk2
    have hcl2 : classifyEvent (existingDict st) e2 = some (.keepKey k2) := by
      split at hcl
      · rename_i tag htag
        injection hcl with hcl
        rw [hcl] at htag
        exact htag
      · exact absurd hcl (by simp)
    obtain ⟨e3, hp3, hk3, sv, hfind3, heq3⟩ := classifyEvent_keep_inv hcl2
    exact ⟨e2, he2, e3, hp3, hk3, sv, hfind3, heq3⟩
  have hnotkeep : k ∉ keepKeys (existingDict st) evs := by
    intro hkmem
    obtain ⟨e2, he2, e3, hp3, hk3, sv, hfind3, heq3⟩ := hkeepinv k hkmem
    rw [hfind] at hfind3
    injection hfind3 with hfind3
    rw [← hfind3] at heq3
    exact hall e2 he2 e3 (by simp [hp3]) hk3 heq3
  have hkdel : k ∈ delKeys (existingDict st) (keepKeys (existingDict st) evs) := by
    unfold delKeys
    rw [List.mem_filter]
    refine ⟨List.mem_map.mpr ⟨(k, se), dictFind_mem hfind, rfl⟩, ?_⟩
    simpa using hnotkeep
  refine ⟨?_, hkdel, rfl, hkeepinv, ?_⟩
  · unfold chgEvents
    rw [List.mem_filterMap]
    exact ⟨e, he, by rw [hcls]⟩
  · have hse_mem : se ∈ st.events := existingDict_mem (dictFind_mem hfind)
    have hid : se.id < st.nextId := hwf se hse_mem
    refine applyInserts_noId _ _ se.id ?_ ?_
    · exact applyDeletes_removes (existingDict st) k se hfind _ st hkdel
    · rw [applyDeletes_nextId]
      exact hid

/-- Witness for C2 at a one-event store whose single entry is matched by
key but differs in description from the incoming event. -/
theorem c2_witness :
    (∀ x ∈ c2Store.events, x.id < c2Store.nextId) ∧
    c2New ∈ [c2New] ∧
    processedVersion c2New = some c2New ∧
    get_event_key c2New = some c2Key ∧
    dictFind (existingDict c2Store) c2Key = some ⟨0, c2Existing⟩ ∧
    events_are_equal c2New c2Existing = some false ∧
    (∀ e2 ∈ [c2New], ∀ e3 ∈ (processedVersion e2).toList,
      get_event_key e3 = some c2Key →
      events_are_equal e3 (StoredEvent.mk 0 c2Existing).ev ≠ some true) ∧
    (c2New ∈ chgEvents (existingDict c2Store) [c2New] ∧
     c2Key ∈ delKeys (existingDict c2Store) (keepKeys (existingDict c2Store) [c2New]) ∧
     (update_calendar c2Store [c2New]).deleted =
       (delKeys (existingDict c2Store) (keepKeys (existingDict c2Store) [c2New])).length ∧
     (∀ k2 ∈ keepKeys (existingDict c2Store) [c2New], ∃ e2 ∈ [c2New], ∃ e3,
       processedVersion e2 = some e3 ∧ get_event_key e3 = some k2 ∧
       ∃ sv, dictFind (existingDict c2Store) k2 = some sv ∧
         events_are_equal e3 sv.ev = some true) ∧
     (∀ x ∈ (applyInserts
         (applyDeletes (existingDict c2Store) c2Store
           (delKeys (existingDict c2Store) (keepKeys (existingDict c2Store) [c2New])))
         (insEvents (existingDict c2Store) [c2New])).events, x.id ≠ 0)) :=
  ⟨by decide, by decide, by decide, by decide, by decide, by decide, by decide,
    c2_updated_keys_are_deleted c2Store [c2New] c2New c2Key ⟨0, c2Existing⟩
      (by decide) (by decide) (by decide) (by decide) (by decide) (by decide)
      (by decide)⟩

end SportsSync
